import Mathlib

/-!
Verification development for the sqlsaber repository.

The Python source is shallowly embedded: query strings become `List Char`,
the database connection becomes an explicit `Conn` state with an optional
open transaction, asynchronous calls become pure state-passing functions,
and external collaborators (the SQL engine, the FTS5 match predicate, the
BM25 scoring function, the LLM agent) become function parameters.
-/

namespace SqlSaber

/-! ## Python string primitives (over `List Char`) -/

/-- The whitespace characters stripped by Python `str.strip()` (ASCII range,
which is all that matters for SQL text). -/
def pyIsSpace (c : Char) : Bool :=
  c = ' ' || c = '\t' || c = '\n' || c = '\r' || c = Char.ofNat 11 || c = Char.ofNat 12

/-- Python `str.strip()`: drop whitespace from both ends. -/
def pyStrip (l : List Char) : List Char :=
  ((l.dropWhile pyIsSpace).reverse.dropWhile pyIsSpace).reverse

/-- Python `str.upper()` (ASCII). -/
def pyUpper (l : List Char) : List Char := l.map Char.toUpper

/-- Python `str.lower()` (ASCII). -/
def pyLower (l : List Char) : List Char := l.map Char.toLower

/-- Python's substring containment test (`needle in hay`). -/
def pySubstr (needle hay : List Char) : Bool := decide (needle <:+: hay)

/-- The first whitespace-delimited token of a string (used to phrase the
spec's "first token" wording). -/
def firstToken (l : List Char) : List Char := l.takeWhile (fun c => !(pyIsSpace c))

/-- Python `str.rstrip(';')`: drop semicolons from the right end only. -/
def pyRstripSemi (l : List Char) : List Char :=
  (l.reverse.dropWhile (fun c => c = ';')).reverse

/-- Python `str.split()` with no argument: split on whitespace runs,
discarding empty pieces. Auxiliary accumulator form. -/
def pySplitAux : List Char → List Char → List (List Char)
  | [], acc => if acc.isEmpty then [] else [acc.reverse]
  | c :: rest, acc =>
    if pyIsSpace c then
      if acc.isEmpty then pySplitAux rest [] else acc.reverse :: pySplitAux rest []
    else pySplitAux rest (c :: acc)

/-- Python `str.split()` with no argument. -/
def pySplit (l : List Char) : List (List Char) := pySplitAux l []

/-! ## Database gateway (joinobi/database/connection.py)

`DatabaseConnection.execute_query` acquires a connection, starts a
transaction, runs the statement and always rolls back in a `finally`
block.  A connection is modelled as a committed database state plus an
optional in-flight transaction state; a SQL statement is modelled as a
function from a database state to either an error or a new state plus
fetched rows (the driver's semantics of the SQL text are external). -/

structure Conn (D : Type) where
  committed : D
  txn : Option D

/-- Semantics of one SQL statement: may fail, otherwise yields the updated
database state and the fetched rows. -/
abbrev Stmt (D R : Type) := D → Except (List Char) (D × List R)

/-- `conn.transaction(); await transaction.start()`: snapshot the committed
state into an open transaction. -/
def txnStart {D : Type} (c : Conn D) : Conn D := { c with txn := some c.committed }

/-- `await transaction.rollback()`: discard the in-flight transaction. -/
def txnRollback {D : Type} (c : Conn D) : Conn D := { c with txn := none }

/-- `await conn.fetch(query)`: run the statement against the open
transaction state if one exists (changes stay inside the transaction),
else against the committed state (autocommit, not exercised by
`execute_query`). -/
def connFetch {D R : Type} (stmt : Stmt D R) (c : Conn D) :
    Except (List Char) (List R) × Conn D :=
  match c.txn with
  | some s =>
    match stmt s with
    | Except.ok (s2, rows) => (Except.ok rows, { c with txn := some s2 })
    | Except.error e => (Except.error e, c)
  | none =>
    match stmt c.committed with
    | Except.ok (s2, rows) => (Except.ok rows, { c with committed := s2 })
    | Except.error e => (Except.error e, c)

/-- `DatabaseConnection.execute_query`: start a transaction, fetch, and
always roll back (the `finally` block runs on success and on error). -/
def executeQuery {D R : Type} (stmt : Stmt D R) (c : Conn D) :
    Except (List Char) (List R) × Conn D :=
  match connFetch stmt (txnStart c) with
  | (res, c2) => (res, txnRollback c2)

/-- A sequence of `execute_query` calls, tracking only the connection. -/
def runQueries {D R : Type} (stmts : List (Stmt D R)) (c : Conn D) : Conn D :=
  stmts.foldl (fun acc stmt => (executeQuery stmt acc).2) c

/-! ## Write gate and limit injection (joinobi/agents/base.py) -/

/-- The write keywords of `BaseSQLAgent._validate_write_operation`. -/
def writeKeywords : List (List Char) :=
  ["INSERT".data, "UPDATE".data, "DELETE".data, "DROP".data, "CREATE".data,
   "ALTER".data, "TRUNCATE".data]

/-- The refusal message returned by `_validate_write_operation`. -/
def writeRefusedMsg : List Char :=
  "Write operations are not allowed. Only SELECT queries are permitted.".data

/-- `BaseSQLAgent._validate_write_operation`: `query.strip().upper()` is
tested with `startswith` against each write keyword; a write query with
`allow_write` off yields the refusal message, otherwise `None`. -/
def validateWriteOperation (allowWrite : Bool) (query : List Char) : Option (List Char) :=
  if writeKeywords.any (fun kw => kw.isPrefixOf (pyUpper (pyStrip query))) && !allowWrite
  then some writeRefusedMsg else none

/-- `BaseSQLAgent._add_limit_to_query`: for a stripped-and-uppercased query
starting with `SELECT` and not containing `LIMIT`, return
`query.rstrip(';') ++ " LIMIT <limit>;"`, else the query unchanged. -/
def addLimitToQuery (query : List Char) (lim : Nat) : List Char :=
  if "SELECT".data.isPrefixOf (pyUpper (pyStrip query))
      && !(pySubstr "LIMIT".data (pyUpper (pyStrip query))) then
    pyRstripSemi query ++ " LIMIT ".data ++ (Nat.repr lim).data ++ ";".data
  else query

/-! ## execute_sql tool (joinobi/agents/anthropic.py) -/

/-- The JSON payload returned by `AnthropicSQLAgent.execute_sql`: either an
error object (with a suggestions list present only on the exception path),
or a success object. -/
inductive ExecOut (R : Type) where
  | errorOut (msg : List Char) (suggestions : Option (List (List Char)))
  | successOut (rowCount : Nat) (results : List R) (truncated : Bool)

/-- The suggestion shaping of `execute_sql`'s exception handler. -/
def errorSuggestions (msg : List Char) : List (List Char) :=
  if pySubstr "column".data (pyLower msg) && pySubstr "does not exist".data (pyLower msg) then
    ["Check column names using the schema introspection tool".data]
  else if pySubstr "table".data (pyLower msg) && pySubstr "does not exist".data (pyLower msg) then
    ["Check table names using the schema introspection tool".data]
  else if pySubstr "syntax error".data (pyLower msg) then
    ["Review SQL syntax, especially JOIN conditions and WHERE clauses".data]
  else []

/-- `AnthropicSQLAgent.execute_sql`: validate the write gate, inject the
limit, execute via the gateway, and shape the result.  `interp` gives the
driver's semantics to each SQL text. -/
def executeSql {D R : Type} (interp : List Char → Stmt D R) (allowWrite : Bool)
    (query : List Char) (lim : Nat) (c : Conn D) : ExecOut R × Conn D :=
  match validateWriteOperation allowWrite query with
  | some err => (ExecOut.errorOut err none, c)
  | none =>
    match executeQuery (interp (addLimitToQuery query lim)) c with
    | (Except.ok results, c2) =>
      (ExecOut.successOut results.length (results.take lim)
        (decide (results.length > lim)), c2)
    | (Except.error e, c2) => (ExecOut.errorOut e (some (errorSuggestions e)), c2)

/-! ## Streaming client cancellation (sqlsaber/clients/anthropic.py)

`AnthropicClient.create_message_with_tools` posts the request, feeds the
SSE chunk stream through `_process_sse_stream` and an
`AnthropicStreamAdapter`, and finally yields a `response_ready` event —
unless the run is cancelled, in which case the `asyncio.CancelledError`
handler returns without yielding it.

The SSE byte-decoding is abstracted: the chunk stream is a list of
already-parsed events `α`.  The caller's cancellation token
(`asyncio.Event`) is modelled as `tok : Nat → Bool`, giving the value the
flag is observed to have at the n-th check of the respective loop. -/

/-- `AnthropicClient._process_sse_stream`: at the top of each chunk
iteration the cancellation token is checked; if it is set the generator
returns, ending the stream early. -/
def processSseStream {α : Type} (tok : Nat → Bool) : List α → Nat → List α
  | [], _ => []
  | e :: rest, step =>
    if tok step then [] else e :: processSseStream tok rest (step + 1)

/-- Modelled from the spec: `AnthropicStreamAdapter.process_stream`
(sqlsaber/clients/streaming.py, not present under src/).  Per the spec the
cancellation flag is "checked between chunks and between events; a set
flag terminates the stream cleanly (no partial response emitted)": the
adapter consumes the decoded events, re-checks the flag between events
(including once when its input ends), and reports whether the run was
cancelled — a cancelled run surfaces as `asyncio.CancelledError`, which
`create_message_with_tools` catches and returns from. -/
def adapterProcessStream {α : Type} (tok : Nat → Bool) : List α → Nat → List α × Bool
  | [], step => ([], tok step)
  | e :: rest, step =>
    if tok step then ([], true)
    else
      match adapterProcessStream tok rest (step + 1) with
      | (out, cancelled) => (e :: out, cancelled)

/-- An event yielded by `create_message_with_tools`: a forwarded stream
event, or the final `response_ready` signal. -/
inductive OutEvt (α : Type) where
  | evt (e : α)
  | responseReady
deriving DecidableEq, Repr

/-- `AnthropicClient.create_message_with_tools`: forward the adapter's
events; if the run was not cancelled, yield `response_ready` at the tail;
a cancelled run returns from the `asyncio.CancelledError` handler without
yielding it. -/
def createMessageWithTools {α : Type} (tok : Nat → Bool) (chunks : List α) :
    List (OutEvt α) :=
  match adapterProcessStream tok (processSseStream tok chunks 0) 0 with
  | (out, cancelled) =>
    if cancelled then out.map OutEvt.evt
    else out.map OutEvt.evt ++ [OutEvt.responseReady]

/-! ## Partial tool-input JSON reassembly (joinobi/agents/anthropic.py)

In `AnthropicSQLAgent.query_stream`, each `content_block_delta` carrying
`partial_json` appends the fragment to the block's `_partial` buffer and
tries `json.loads` on the whole buffer: a successful parse overwrites the
block's `input`, a `JSONDecodeError` leaves it unchanged.  The JSON parser
is abstracted as a partial function `parse`. -/

/-- One `partial_json` delta: extend the rolling buffer and keep the last
successful parse. -/
def accumStep {J : Type} (parse : List Char → Option J) (st : List Char × J)
    (frag : List Char) : List Char × J :=
  (st.1 ++ frag, (parse (st.1 ++ frag)).getD st.2)

/-- Feeding a whole fragment sequence to the accumulator, starting from an
empty buffer and the initial `input` value (`{}` in the source). -/
def accumInput {J : Type} (parse : List Char → Option J) (init : J)
    (frags : List (List Char)) : List Char × J :=
  frags.foldl (accumStep parse) ([], init)

/-! ## Schema cache (sqlsaber/database/schema.py)

`SchemaManager` keeps `_schema_cache : dict[str, (stored_at, data)]` and a
`cache_ttl` (default 900 s).  Time stamps are modelled as integers; the
schema payload and the database fetch (`_fetch_schema_from_db`) are
abstracted: the fetched value is passed in as `fetched`, and the returned
flag records whether the underlying driver was queried. -/

structure SchemaManager (S : Type) where
  cacheTtl : Int
  cache : List (String × Int × S)

/-- Python dict lookup on the association-list model (most recent binding
for a key shadows older ones). -/
def lookupCache {S : Type} : List (String × Int × S) → String → Option (Int × S)
  | [], _ => none
  | (k, t, d) :: rest, key => if k = key then some (t, d) else lookupCache rest key

/-- Python dict assignment `cache[key] = (now, data)`. -/
def cacheInsert {S : Type} (cache : List (String × Int × S)) (key : String)
    (t : Int) (d : S) : List (String × Int × S) :=
  (key, t, d) :: cache.filter (fun kv => kv.1 ≠ key)

/-- `SchemaManager._get_cached_schema`: a hit returns the cached data
exactly when the key is present and `now - stored_at < cache_ttl`. -/
def getCachedSchema {S : Type} (m : SchemaManager S) (key : String) (now : Int) :
    Option S :=
  match lookupCache m.cache key with
  | some (t, d) => if now - t < m.cacheTtl then some d else none
  | none => none

/-- `SchemaManager.clear_schema_cache`. -/
def clearSchemaCache {S : Type} (m : SchemaManager S) : SchemaManager S :=
  { m with cache := [] }

/-- The cache key `f"schema:{table_pattern or 'all'}"`. -/
def cacheKey (pattern : Option String) : String := "schema:" ++ pattern.getD "all"

/-- `SchemaManager.get_schema_info`: check the cache first; on a miss fetch
from the database (the external fetch result is `fetched`) and store it at
time `now`.  The boolean reports whether the driver was queried. -/
def getSchemaInfo {S : Type} (m : SchemaManager S) (pattern : Option String)
    (now : Int) (fetched : S) : S × SchemaManager S × Bool :=
  match getCachedSchema m (cacheKey pattern) now with
  | some d => (d, m, false)
  | none =>
    (fetched, { m with cache := cacheInsert m.cache (cacheKey pattern) now fetched }, true)

/-! ## Viz spec sub-agent retry loop (plugins/viz/src/sqlsaber_viz/spec_agent.py)

`SpecAgent.generate_spec` loops over `attempt in range(MAX_RETRIES + 1)`:
run the agent on the current prompt with the current `message_history`,
parse-and-validate the output; on success return the spec, on failure
raise if this was the last attempt, otherwise carry the agent's full
`result.all_messages()` as history and a fresh user prompt containing the
validation error.  The LLM agent is abstracted as a function from
(prompt, history) to its output and full message list; parsing plus
`VizSpec.model_validate` is abstracted as `validate`. -/

def MAX_RETRIES : Nat := 2

/-- One `agent.run` result: the textual output and `result.all_messages()`. -/
structure AgentResult (O M : Type) where
  output : O
  allMessages : List M

/-- The retry user prompt built from a validation error's text. -/
def mkRetryPrompt (errText : String) : String :=
  "The spec you returned failed validation:\n" ++ errText
    ++ "\n\nFix the JSON and return ONLY the corrected spec."

/-- The retry loop of `generate_spec`, with `n` retries remaining.  Besides
the result it returns the trace of `(prompt, message_history)` arguments of
each `agent.run` invocation, in order. -/
def specLoop {O M E S : Type} (agent : String → Option (List M) → AgentResult O M)
    (validate : O → Except E S) (render : E → String) :
    Nat → String → Option (List M) →
    Except E S × List (String × Option (List M))
  | 0, prompt, hist =>
    (match validate (agent prompt hist).output with
     | Except.ok spec => Except.ok spec
     | Except.error e => Except.error e, [(prompt, hist)])
  | Nat.succ n, prompt, hist =>
    match validate (agent prompt hist).output with
    | Except.ok spec => (Except.ok spec, [(prompt, hist)])
    | Except.error e =>
      match specLoop agent validate render n (mkRetryPrompt (render e))
          (some (agent prompt hist).allMessages) with
      | (res, tr) => (res, (prompt, hist) :: tr)

/-- `SpecAgent.generate_spec` on the initial prompt: `MAX_RETRIES` retries
after the first attempt, starting with `message_history = None`. -/
def generateSpec {O M E S : Type} (agent : String → Option (List M) → AgentResult O M)
    (validate : O → Except E S) (render : E → String) (p0 : String) :
    Except E S × List (String × Option (List M)) :=
  specLoop agent validate render MAX_RETRIES p0 none

/-! ## Knowledge store (sqlsaber/knowledge/sqlite_store.py)

The SQLite `knowledge` table is modelled as a list of entries; the FTS5
`MATCH` predicate and the `bm25` ranking function are external SQLite
machinery and become parameters.  The `SELECT ... WHERE knowledge_fts
MATCH ? AND k.database_name = ? ORDER BY bm25(knowledge_fts),
k.updated_at DESC LIMIT ?` of `_run_fts_query` becomes filter + sort +
take. -/

structure KnowledgeEntry where
  id : String
  database_name : String
  name : String
  description : String
  sql : Option String
  source : Option String
  created_at : Int
  updated_at : Int
deriving DecidableEq, Repr

/-- The `ORDER BY bm25(knowledge_fts), k.updated_at DESC` ordering:
BM25 rank ascending, then `updated_at` descending. -/
def rankRel (bm25 : KnowledgeEntry → Int) (e1 e2 : KnowledgeEntry) : Prop :=
  bm25 e1 < bm25 e2 ∨ (bm25 e1 = bm25 e2 ∧ e2.updated_at ≤ e1.updated_at)

instance rankRelDecidable (bm25 : KnowledgeEntry → Int) :
    DecidableRel (rankRel bm25) := fun e1 e2 =>
  inferInstanceAs (Decidable (bm25 e1 < bm25 e2
    ∨ (bm25 e1 = bm25 e2 ∧ e2.updated_at ≤ e1.updated_at)))

instance rankRelTotal (bm25 : KnowledgeEntry → Int) :
    IsTotal KnowledgeEntry (rankRel bm25) := by
  constructor; intro a b; unfold rankRel; omega

instance rankRelTrans (bm25 : KnowledgeEntry → Int) :
    IsTrans KnowledgeEntry (rankRel bm25) := by
  constructor; intro a b c hab hbc; unfold rankRel at hab hbc ⊢; omega

/-- `SQLiteKnowledgeStore._run_fts_query`: rows matching the FTS query and
the database name, ordered by BM25 ascending then `updated_at` descending,
capped at `lim`. -/
def runFtsQuery (entries : List KnowledgeEntry) (bm25 : KnowledgeEntry → Int)
    (ftsMatch : List Char → KnowledgeEntry → Bool) (databaseName : String)
    (fq : List Char) (lim : Nat) : List KnowledgeEntry :=
  (List.insertionSort (rankRel bm25)
    (entries.filter (fun e => ftsMatch fq e && e.database_name == databaseName))).take lim

/-- The FTS operator markers checked by `_prepare_fts_query` (against the
upper-cased, stripped query). -/
def ftsOperatorTokens : List (List Char) :=
  [" OR ".data, " AND ".data, " NOT ".data, " NEAR ".data, ['"']]

/-- `SQLiteKnowledgeStore._prepare_fts_query`: pass explicit FTS syntax
through; otherwise join the whitespace tokens with `OR`. -/
def prepareFtsQuery (rawQuery : List Char) : List Char :=
  if pyStrip rawQuery = [] then []
  else if ftsOperatorTokens.any (fun tkn => pySubstr tkn (pyUpper (pyStrip rawQuery)))
      || (pyStrip rawQuery).contains '(' || (pyStrip rawQuery).contains ')' then
    pyStrip rawQuery
  else
    match pySplit (pyStrip rawQuery) with
    | [] => []
    | [tkn] => tkn
    | tkns => List.intercalate " OR ".data tkns

/-- `SQLiteKnowledgeStore._sanitize_token`: remove double quotes. -/
def sanitizeToken (tkn : List Char) : List Char := tkn.filter (fun c => !(c = '"'))

/-- `SQLiteKnowledgeStore._quoted_token_query`: quote each whitespace
token (dropping ones that sanitize to nothing) and join with `OR`. -/
def quotedTokenQuery (rawQuery : List Char) : List Char :=
  match pySplit rawQuery with
  | [] => []
  | [tkn] => if sanitizeToken tkn = [] then [] else '"' :: (sanitizeToken tkn ++ ['"'])
  | tkns =>
    List.intercalate " OR ".data
      ((tkns.map (fun tkn => '"' :: (sanitizeToken tkn ++ ['"']))).filter
        (fun q => q ≠ ['"', '"']))

/-- `SQLiteKnowledgeStore.search`: empty/whitespace query short-circuits to
`[]`; otherwise run the prepared FTS query capped at `max(1, limit)`, and
on an empty result retry once with the quoted-token fallback. -/
def searchKnowledge (entries : List KnowledgeEntry) (bm25 : KnowledgeEntry → Int)
    (ftsMatch : List Char → KnowledgeEntry → Bool) (databaseName : String)
    (query : List Char) (lim : Nat) : List KnowledgeEntry :=
  if pyStrip query = [] then []
  else if prepareFtsQuery query = [] then []
  else
    match runFtsQuery entries bm25 ftsMatch databaseName (prepareFtsQuery query)
        (max 1 lim) with
    | [] =>
      if quotedTokenQuery query = [] ∨ quotedTokenQuery query = prepareFtsQuery query
      then []
      else runFtsQuery entries bm25 ftsMatch databaseName (quotedTokenQuery query)
        (max 1 lim)
    | e :: rest => e :: rest

/-- `SQLiteKnowledgeStore.remove`: `DELETE FROM knowledge WHERE
database_name = ? AND id = ?`, then report `total_changes > 0` of the
per-operation connection (the number of rows the DELETE removed). -/
def removeEntry (store : List KnowledgeEntry) (databaseName entryId : String) :
    List KnowledgeEntry × Bool :=
  (store.filter (fun e => !(e.database_name == databaseName && e.id == entryId)),
   decide (0 < (store.filter
     (fun e => e.database_name == databaseName && e.id == entryId)).length))

/-! ## VizSpec and bar-chart defaults (plugins/viz/src/sqlsaber_viz/spec.py,
tools.py)

The pydantic models of `spec.py`, specialised to what a validated spec
carries.  String-typed literal enums (`"category" | "number" | "time"`,
sort direction, orientation, mode, filter operator) stay strings; numeric
fields become `Int`; `FilterConfig.value` (a JSON scalar) is abstracted to
a string rendering, which `_ensure_bar_defaults` never inspects. -/

structure FieldEncoding where
  field : String
  type : String
deriving DecidableEq, Repr

structure ChartOptions where
  width : Option Int
  height : Option Int
  x_label : Option String
  y_label : Option String
  color : Option String
  marker : Option String
deriving DecidableEq, Repr

structure BarEncoding where
  x : FieldEncoding
  y : FieldEncoding
  series : Option FieldEncoding
deriving DecidableEq, Repr

/-- The discriminated `ChartSpec` union of spec.py. -/
inductive ChartSpec where
  | bar (encoding : BarEncoding) (orientation : String) (mode : String)
      (options : ChartOptions)
  | line (x y : FieldEncoding) (series : Option FieldEncoding) (options : ChartOptions)
  | scatter (x y : FieldEncoding) (series : Option FieldEncoding)
      (options : ChartOptions)
  | boxplot (label_field value_field : String) (options : ChartOptions)
  | histogram (field : String) (bins : Int) (options : ChartOptions)
deriving DecidableEq, Repr

structure SortItem where
  field : String
  dir : String
deriving DecidableEq, Repr

/-- The `Transform` union: `SortTransform`, `LimitTransform`,
`FilterTransform`. -/
inductive Transform where
  | sortT (sort : List SortItem)
  | limitT (limit : Int)
  | filterT (field : String) (op : String) (value : String)
deriving DecidableEq, Repr

structure VizSpec where
  version : String
  title : Option String
  description : Option String
  data_source_file : String
  chart : ChartSpec
  transform : List Transform
deriving DecidableEq, Repr

/-- `isinstance(t, SortTransform)`. -/
def isSortTransform : Transform → Bool
  | Transform.sortT _ => true
  | _ => false

/-- `isinstance(t, LimitTransform)`. -/
def isLimitTransform : Transform → Bool
  | Transform.limitT _ => true
  | _ => false

/-- `VizTool._ensure_bar_defaults`: for bar charts, append a descending
sort on the Y-encoding field when no sort transform is present, then a
`limit=20` transform when no limit transform is present and the result has
more than 20 rows; return the spec object itself when nothing changed. -/
def ensureBarDefaults (spec : VizSpec) (rowCount : Nat) : VizSpec :=
  match spec.chart with
  | ChartSpec.bar encoding _ _ _ =>
    (fun transforms2 =>
      if transforms2 = spec.transform then spec
      else { spec with transform := transforms2 })
    ((fun transforms1 =>
        if !(spec.transform.any isLimitTransform) && decide (rowCount > 20)
        then transforms1 ++ [Transform.limitT 20] else transforms1)
      (if !(spec.transform.any isSortTransform)
       then spec.transform
         ++ [Transform.sortT [{ field := encoding.y.field, dir := "desc" }]]
       else spec.transform))
  | _ => spec

/-! ## Theorems -/

/-- Every `execute_query` ends with the committed state untouched and no
transaction open. -/
theorem executeQuery_conn {D R : Type} (stmt : Stmt D R) (c : Conn D) :
    (executeQuery stmt c).2 = { committed := c.committed, txn := none } := by
  unfold executeQuery connFetch txnStart txnRollback
  rcases h : stmt c.committed with e | p <;> simp [h]

/-- A query whose stripped, upper-cased text starts with `S` is not a write
query: no write keyword begins with `S`. -/
theorem validateWrite_startS (aw : Bool) (q t : List Char)
    (ht : pyUpper (pyStrip q) = 'S' :: t) :
    validateWriteOperation aw q = none := by
  have hany : writeKeywords.any (fun kw => kw.isPrefixOf ('S' :: t)) = false := rfl
  unfold validateWriteOperation
  simp only [ht, hany, Bool.false_and, Bool.and_eq_true, if_neg]
  simp

/-- C1: for every SQL query whose first token, after stripping leading
whitespace and upper-casing, is one of INSERT, UPDATE, DELETE, DROP,
CREATE, ALTER or TRUNCATE, and with dangerous mode (`allow_write`) off,
`execute_sql` returns the error payload and does not execute the query:
the connection — and hence the database state — is returned unchanged. -/
theorem c1_write_gate {D R : Type} (interp : List Char → Stmt D R)
    (q : List Char) (lim : Nat) (c : Conn D)
    (h : firstToken (pyUpper (pyStrip q)) ∈ writeKeywords) :
    executeSql interp false q lim c = (ExecOut.errorOut writeRefusedMsg none, c) := by
  have hpre : (firstToken (pyUpper (pyStrip q))).isPrefixOf (pyUpper (pyStrip q)) = true := by
    have := List.takeWhile_prefix (l := pyUpper (pyStrip q)) (fun c => !(pyIsSpace c))
    simpa [firstToken] using this
  have hany : writeKeywords.any (fun kw => kw.isPrefixOf (pyUpper (pyStrip q))) = true :=
    List.any_eq_true.mpr ⟨_, h, hpre⟩
  unfold executeSql validateWriteOperation
  rw [hany]
  rfl

/-- Witness for C1 at the concrete refused query `DROP TABLE users`. -/
theorem c1_write_gate_witness :
    firstToken (pyUpper (pyStrip ("DROP TABLE users".data))) ∈ writeKeywords
    ∧ executeSql (D := Unit) (R := Unit) (fun _ => fun s => Except.ok (s, []))
        false ("DROP TABLE users".data) 100 { committed := (), txn := none }
      = (ExecOut.errorOut writeRefusedMsg none, { committed := (), txn := none }) :=
  ⟨by decide, c1_write_gate _ _ _ _ (by decide)⟩

/-- C2: every `execute_query` call opens a transaction and always rolls it
back on exit — on success and on error alike — so no statement commits:
the committed state is unchanged after one call, no transaction stays
open, and any sequence of `execute_query` calls leaves the database state
equal to the state before the sequence. -/
theorem c2_rollback_isolation {D R : Type} (stmt : Stmt D R)
    (stmts : List (Stmt D R)) (c : Conn D) :
    (executeQuery stmt c).2.committed = c.committed
    ∧ (executeQuery stmt c).2.txn = none
    ∧ (runQueries stmts c).committed = c.committed := by
  refine ⟨by rw [executeQuery_conn], by rw [executeQuery_conn], ?_⟩
  induction stmts generalizing c with
  | nil => rfl
  | cons s rest ih =>
    show (runQueries rest (executeQuery s c).2).committed = c.committed
    rw [ih, executeQuery_conn]

/-- C3: for a query whose first token is SELECT and which contains no
LIMIT, `execute_sql` executes the query with ` LIMIT n;` appended after
stripping trailing semicolons, and returns at most `n` results; queries
already containing LIMIT, and non-SELECT queries, pass through
`_add_limit_to_query` unchanged. -/
theorem c3_limit_injection {D R : Type} (interp : List Char → Stmt D R)
    (aw : Bool) (q : List Char) (n : Nat) (c : Conn D)
    (h1 : firstToken (pyUpper (pyStrip q)) = "SELECT".data)
    (h2 : pySubstr "LIMIT".data (pyUpper (pyStrip q)) = false) :
    addLimitToQuery q n
      = pyRstripSemi q ++ " LIMIT ".data ++ (Nat.repr n).data ++ ";".data
    ∧ (∀ rows c2,
        executeQuery (interp (addLimitToQuery q n)) c = (Except.ok rows, c2) →
        executeSql interp aw q n c
          = (ExecOut.successOut rows.length (rows.take n)
              (decide (rows.length > n)), c2)
        ∧ (rows.take n).length ≤ n)
    ∧ (∀ q' : List Char,
        "SELECT".data.isPrefixOf (pyUpper (pyStrip q')) = false
          ∨ pySubstr "LIMIT".data (pyUpper (pyStrip q')) = true →
        addLimitToQuery q' n = q') := by
  have hsel : "SELECT".data <+: pyUpper (pyStrip q) := by
    have := List.takeWhile_prefix (l := pyUpper (pyStrip q)) (fun c => !(pyIsSpace c))
    rw [show (pyUpper (pyStrip q)).takeWhile (fun c => !(pyIsSpace c))
        = firstToken (pyUpper (pyStrip q)) from rfl, h1] at this
    exact this
  obtain ⟨t, ht⟩ := hsel
  have hvalid : validateWriteOperation aw q = none :=
    validateWrite_startS aw q ("ELECT".data ++ t) (by rw [← ht]; rfl)
  have hpre : "SELECT".data.isPrefixOf (pyUpper (pyStrip q)) = true := by
    rw [← ht]
    simp [ List.isPrefixOf_iff_prefix]
  have hadd : addLimitToQuery q n
      = pyRstripSemi q ++ " LIMIT ".data ++ (Nat.repr n).data ++ ";".data := by
    unfold addLimitToQuery
    rw [hpre, h2]
    rfl
  refine ⟨hadd, ?_, ?_⟩
  · intro rows c2 heq
    constructor
    · unfold executeSql
      rw [hvalid, heq]
    · calc (rows.take n).length = min n rows.length := by
            rw [List.length_take]
        _ ≤ n := Nat.min_le_left _ _
  · intro q' hq'
    rcases hq' with h | h <;> simp [addLimitToQuery, h]

/-- Witness for C3 at the concrete query `SELECT * FROM t;` with limit 5. -/
theorem c3_limit_injection_witness :
    firstToken (pyUpper (pyStrip ("SELECT * FROM t;".data))) = "SELECT".data
    ∧ pySubstr "LIMIT".data (pyUpper (pyStrip ("SELECT * FROM t;".data))) = false
    ∧ addLimitToQuery ("SELECT * FROM t;".data) 5 = "SELECT * FROM t LIMIT 5;".data := by
  refine ⟨by decide, by decide, ?_⟩
  have h := (c3_limit_injection (D := Unit) (R := Unit)
    (fun _ => fun s => Except.ok (s, [])) false ("SELECT * FROM t;".data) 5
    { committed := (), txn := none } (by decide) (by decide)).1
  rw [h]
  decide

/-- What the chunk loop emits: a prefix of the chunk list; the token reads
false at every emitted position, and if the stream was cut short the token
read true at the cut. -/
theorem sse_take {α : Type} (tok : Nat → Bool) (chunks : List α) (s : Nat) :
    processSseStream tok chunks s
      = chunks.take (processSseStream tok chunks s).length
    ∧ (processSseStream tok chunks s).length ≤ chunks.length
    ∧ (∀ j, j < (processSseStream tok chunks s).length → tok (s + j) = false)
    ∧ ((processSseStream tok chunks s).length < chunks.length →
        tok (s + (processSseStream tok chunks s).length) = true) := by
  induction chunks generalizing s with
  | nil => exact ⟨rfl, Nat.le_refl _, fun j hj => absurd hj (by simp [processSseStream]),
      fun h => absurd h (by simp [processSseStream])⟩
  | cons e rest ih =>
    by_cases h : tok s = true
    · refine ⟨by simp [processSseStream, h], by simp [processSseStream, h], ?_, ?_⟩
      · intro j hj
        exact absurd hj (by simp [processSseStream, h])
      · intro _
        simp [processSseStream, h]
    · have h' : tok s = false := by simpa using h
      obtain ⟨ihtake, ihlen, ihfalse, ihlast⟩ := ih (s + 1)
      have hunf : processSseStream tok (e :: rest) s
          = e :: processSseStream tok rest (s + 1) := by
        simp [processSseStream, h']
      refine ⟨?_, ?_, ?_, ?_⟩
      · rw [hunf]
        simp only [List.length_cons, List.take_succ_cons]
        exact congrArg (e :: ·) ihtake
      · rw [hunf]
        simpa using Nat.succ_le_succ ihlen
      · intro j hj
        rw [hunf] at hj
        simp only [List.length_cons, Nat.lt_succ_iff] at hj
        match j with
        | 0 => simpa using h'
        | Nat.succ j' =>
          have harith : s + j'.succ = (s + 1) + j' := by omega
          rw [harith]
          exact ihfalse j' (by omega)
      · intro hlt
        rw [hunf] at hlt ⊢
        simp only [List.length_cons, Nat.succ_lt_succ_iff] at hlt
        have : s + (processSseStream tok rest (s + 1)).length.succ
            = (s + 1) + (processSseStream tok rest (s + 1)).length := by omega
        simpa [this] using ihlast hlt

/-- If the token reads false at every event position, the adapter forwards
everything and reports the token's value at its final end-of-input check. -/
theorem adapter_run {α : Type} (tok : Nat → Bool) (evts : List α) (s : Nat)
    (h : ∀ j, j < evts.length → tok (s + j) = false) :
    adapterProcessStream tok evts s = (evts, tok (s + evts.length)) := by
  induction evts generalizing s with
  | nil => simp [adapterProcessStream]
  | cons e rest ih =>
    have h0 : tok s = false := by simpa using h 0 (by simp)
    have hrec : adapterProcessStream tok rest (s + 1)
        = (rest, tok ((s + 1) + rest.length)) := by
      refine ih (s + 1) ?_
      intro j hj
      have : (s + 1) + j = s + (j + 1) := by omega
      rw [this]
      exact h (j + 1) (by simpa using Nat.succ_lt_succ hj)
    simp [adapterProcessStream, h0, hrec]
    exact congrArg tok (by omega)

/-- C4: if the caller's cancellation token is set at some check during the
stream, `create_message_with_tools` terminates cleanly without ever
emitting `response_ready`, and the events it did emit are a prefix of the
chunk stream's events, so already-emitted events remain valid. -/
theorem c4_cancellation {α : Type} (tok : Nat → Bool) (chunks : List α)
    (h : ∃ i, i < chunks.length ∧ tok i = true) :
    OutEvt.responseReady ∉ createMessageWithTools tok chunks
    ∧ ∃ k, createMessageWithTools tok chunks = (chunks.take k).map OutEvt.evt := by
  obtain ⟨i, hi, hti⟩ := h
  obtain ⟨htake, hlen, hfalse, hlast⟩ := sse_take tok chunks 0
  have hlt : (processSseStream tok chunks 0).length < chunks.length := by
    rcases Nat.lt_or_ge (processSseStream tok chunks 0).length chunks.length with h' | h'
    · exact h'
    · exfalso
      have heq : (processSseStream tok chunks 0).length = chunks.length :=
        Nat.le_antisymm hlen h'
      have := hfalse i (by omega)
      simp only [Nat.zero_add] at this
      exact absurd hti (by simp [this])
  have hcanc : tok (processSseStream tok chunks 0).length = true := by
    simpa using hlast hlt
  have hadapt : adapterProcessStream tok (processSseStream tok chunks 0) 0
      = (processSseStream tok chunks 0,
         tok (processSseStream tok chunks 0).length) := by
    have := adapter_run tok (processSseStream tok chunks 0) 0
      (fun j hj => hfalse j hj)
    simpa using this
  have hrun : createMessageWithTools tok chunks
      = (processSseStream tok chunks 0).map OutEvt.evt := by
    unfold createMessageWithTools
    rw [hadapt, hcanc]
    simp
  constructor
  · rw [hrun]
    simp
  · exact ⟨(processSseStream tok chunks 0).length, by rw [hrun, ← htake]⟩

/-- Witness for C4: a token set from the second check onwards on a
three-chunk stream. -/
theorem c4_cancellation_witness :
    (∃ i, i < ([10, 20, 30] : List Nat).length ∧ (fun n => decide (1 ≤ n)) i = true)
    ∧ OutEvt.responseReady ∉ createMessageWithTools (fun n => decide (1 ≤ n)) [10, 20, 30] :=
  ⟨⟨1, by decide, by decide⟩,
   (c4_cancellation (fun n => decide (1 ≤ n)) [10, 20, 30] ⟨1, by decide, by decide⟩).1⟩

/-- The accumulator's buffer is always the concatenation of the fragments
fed so far. -/
theorem accum_buffer {J : Type} (parse : List Char → Option J)
    (frags : List (List Char)) (st : List Char × J) :
    (frags.foldl (accumStep parse) st).1 = st.1 ++ frags.flatten := by
  induction frags generalizing st with
  | nil => simp
  | cons f rest ih =>
    simp only [List.foldl_cons, List.flatten_cons]
    rw [ih]
    simp [accumStep, List.append_assoc]

/-- C5: if the complete tool input parses as JSON, then feeding any split
of it — any non-empty fragment list whose concatenation is the input — to
the partial-JSON accumulator ends with `input` equal to the parse of the
whole concatenation: the final successful parse wins, and intermediate
parse failures do not change the result. -/
theorem c5_partial_json {J : Type} (parse : List Char → Option J) (init : J)
    (frags : List (List Char)) (s : List Char) (v : J)
    (hne : frags ≠ []) (hcat : frags.flatten = s) (hp : parse s = some v) :
    (accumInput parse init frags).2 = v := by
  rcases List.eq_nil_or_concat' frags with rfl | ⟨L, b, rfl⟩
  · exact absurd rfl hne
  · unfold accumInput
    rw [List.foldl_append]
    simp only [List.foldl_cons, List.foldl_nil]
    generalize hst : List.foldl (accumStep parse) ([], init) L = st
    have hbuf : st.1 = ([] : List Char) ++ L.flatten := by
      rw [← hst]
      exact accum_buffer parse L ([], init)
    show (parse (st.1 ++ b)).getD st.2 = v
    rw [hbuf]
    have hs : ((([] : List Char) ++ L.flatten) ++ b) = s := by
      rw [← hcat]
      simp
    rw [hs, hp]
    rfl

/-- Witness for C5: the input `ab` split into two fragments, with a parser
that only accepts the full input. -/
theorem c5_partial_json_witness :
    ([['a'], ['b']] : List (List Char)) ≠ []
    ∧ ([['a'], ['b']] : List (List Char)).flatten = ['a', 'b']
    ∧ (accumInput (fun l => if l = ['a', 'b'] then some 42 else none) 0
        [['a'], ['b']]).2 = 42 :=
  ⟨by decide, by decide,
   c5_partial_json _ 0 _ ['a', 'b'] 42 (by decide) (by decide) (by decide)⟩

/-- C6: starting from an empty cache, two successive `get_schema` calls
with the same pattern within the TTL return equal schema structures while
querying the underlying driver exactly once (first call fetches, second
does not); a cache hit occurs exactly when the key is stored and
`now - stored_at < TTL`; and `clear_schema_cache` drops all entries. -/
theorem c6_schema_cache_ttl {S : Type} (ttl : Int) (d : S) (pattern : Option String)
    (now1 now2 : Int) (h : now2 - now1 < ttl) :
    (getSchemaInfo { cacheTtl := ttl, cache := [] } pattern now1 d).1 = d
    ∧ (getSchemaInfo { cacheTtl := ttl, cache := [] } pattern now1 d).2.2 = true
    ∧ (getSchemaInfo ((getSchemaInfo { cacheTtl := ttl, cache := [] } pattern now1 d).2.1)
        pattern now2 d).1
      = (getSchemaInfo { cacheTtl := ttl, cache := [] } pattern now1 d).1
    ∧ (getSchemaInfo ((getSchemaInfo { cacheTtl := ttl, cache := [] } pattern now1 d).2.1)
        pattern now2 d).2.2 = false
    ∧ (∀ (m : SchemaManager S) (key : String) (now : Int) (dd : S),
        getCachedSchema m key now = some dd
          ↔ ∃ t, lookupCache m.cache key = some (t, dd) ∧ now - t < m.cacheTtl)
    ∧ (∀ m : SchemaManager S, (clearSchemaCache m).cache = []) := by
  refine ⟨?_, ?_, ?_, ?_, ?_, ?_⟩
  · simp [getSchemaInfo, getCachedSchema, lookupCache]
  · simp [getSchemaInfo, getCachedSchema, lookupCache]
  · simp [getSchemaInfo, getCachedSchema, lookupCache, cacheInsert, h]
  · simp [getSchemaInfo, getCachedSchema, lookupCache, cacheInsert, h]
  · intro m key now dd
    unfold getCachedSchema
    cases hl : lookupCache m.cache key with
    | none => simp
    | some td =>
      obtain ⟨t, dd'⟩ := td
      by_cases hc : now - t < m.cacheTtl
      · simp only [hc, if_true, Option.some.injEq, Prod.mk.injEq]
        constructor
        · rintro rfl
          exact ⟨t, ⟨rfl, rfl⟩, hc⟩
        · rintro ⟨t', ⟨rfl, rfl⟩, _⟩
          rfl
      · simp only [hc, if_false]
        constructor
        · rintro h'
          exact absurd h' (by simp)
        · rintro ⟨t', ht', hlt⟩
          rw [Option.some.injEq, Prod.mk.injEq] at ht'
          obtain ⟨rfl, rfl⟩ := ht'
          exact absurd hlt hc
  · intro m
    rfl

/-- Witness for C6 with TTL 900, the two calls at times 0 and 10. -/
theorem c6_schema_cache_ttl_witness :
    ((10 : Int) - 0 < 900)
    ∧ (getSchemaInfo ((getSchemaInfo
          { cacheTtl := (900 : Int), cache := ([] : List (String × Int × Nat)) }
          none 0 5).2.1) none 10 5).2.2 = false :=
  ⟨by decide, (c6_schema_cache_ttl 900 5 none 0 10 (by decide)).2.2.2.1⟩

/-- C7: `generate_spec` invokes the agent at most `MAX_RETRIES + 1 = 3`
times, the first time with the caller's prompt and no history; it returns
the first output that validates, each retry passing the full message
history of the previous attempt plus a new user prompt containing the
validation error; only when the final attempt also fails is the error
raised. -/
theorem c7_viz_spec_retry {O M E S : Type}
    (agent : String → Option (List M) → AgentResult O M)
    (validate : O → Except E S) (render : E → String) (p0 : String) :
    (generateSpec agent validate render p0).2.length ≤ MAX_RETRIES + 1
    ∧ (generateSpec agent validate render p0).2.head? = some (p0, none)
    ∧ (∀ spec, validate (agent p0 none).output = Except.ok spec →
        generateSpec agent validate render p0 = (Except.ok spec, [(p0, none)]))
    ∧ (∀ e0, validate (agent p0 none).output = Except.error e0 →
        (∀ spec,
          validate (agent (mkRetryPrompt (render e0))
              (some (agent p0 none).allMessages)).output = Except.ok spec →
          generateSpec agent validate render p0
            = (Except.ok spec,
               [(p0, none),
                (mkRetryPrompt (render e0), some (agent p0 none).allMessages)]))
        ∧ (∀ e1,
            validate (agent (mkRetryPrompt (render e0))
                (some (agent p0 none).allMessages)).output = Except.error e1 →
            (∀ spec,
              validate (agent (mkRetryPrompt (render e1))
                  (some (agent (mkRetryPrompt (render e0))
                      (some (agent p0 none).allMessages)).allMessages)).output
                = Except.ok spec →
              generateSpec agent validate render p0
                = (Except.ok spec,
                   [(p0, none),
                    (mkRetryPrompt (render e0), some (agent p0 none).allMessages),
                    (mkRetryPrompt (render e1),
                     some (agent (mkRetryPrompt (render e0))
                        (some (agent p0 none).allMessages)).allMessages)]))
            ∧ (∀ e2,
                validate (agent (mkRetryPrompt (render e1))
                    (some (agent (mkRetryPrompt (render e0))
                        (some (agent p0 none).allMessages)).allMessages)).output
                  = Except.error e2 →
                generateSpec agent validate render p0
                  = (Except.error e2,
                     [(p0, none),
                      (mkRetryPrompt (render e0), some (agent p0 none).allMessages),
                      (mkRetryPrompt (render e1),
                       some (agent (mkRetryPrompt (render e0))
                          (some (agent p0 none).allMessages)).allMessages)])))) := by
  refine ⟨?_, ?_, ?_, ?_⟩
  · rcases hv0 : validate (agent p0 none).output with e0 | spec0
    · rcases hv1 : validate (agent (mkRetryPrompt (render e0))
          (some (agent p0 none).allMessages)).output with e1 | spec1
      · rcases hv2 : validate (agent (mkRetryPrompt (render e1))
            (some (agent (mkRetryPrompt (render e0))
                (some (agent p0 none).allMessages)).allMessages)).output with e2 | spec2
        · simp [generateSpec, MAX_RETRIES, specLoop, hv0, hv1, hv2]
        · simp [generateSpec, MAX_RETRIES, specLoop, hv0, hv1, hv2]
      · simp [generateSpec, MAX_RETRIES, specLoop, hv0, hv1]
    · simp [generateSpec, MAX_RETRIES, specLoop, hv0]
  · rcases hv0 : validate (agent p0 none).output with e0 | spec0
    · rcases hv1 : validate (agent (mkRetryPrompt (render e0))
          (some (agent p0 none).allMessages)).output with e1 | spec1
      · rcases hv2 : validate (agent (mkRetryPrompt (render e1))
            (some (agent (mkRetryPrompt (render e0))
                (some (agent p0 none).allMessages)).allMessages)).output with e2 | spec2
        · simp [generateSpec, MAX_RETRIES, specLoop, hv0, hv1, hv2]
        · simp [generateSpec, MAX_RETRIES, specLoop, hv0, hv1, hv2]
      · simp [generateSpec, MAX_RETRIES, specLoop, hv0, hv1]
    · simp [generateSpec, MAX_RETRIES, specLoop, hv0]
  · intro spec hv0
    simp [generateSpec, MAX_RETRIES, specLoop, hv0]
  · intro e0 hv0
    refine ⟨?_, ?_⟩
    · intro spec hv1
      simp [generateSpec, MAX_RETRIES, specLoop, hv0, hv1]
    · intro e1 hv1
      refine ⟨?_, ?_⟩
      · intro spec hv2
        simp [generateSpec, MAX_RETRIES, specLoop, hv0, hv1, hv2]
      · intro e2 hv2
        simp [generateSpec, MAX_RETRIES, specLoop, hv0, hv1, hv2]

/-- Witness for C7: an agent whose first output fails validation and whose
second (run with the error feedback and the first attempt's messages)
succeeds. -/
theorem c7_viz_spec_retry_witness :
    (fun o => if o = 1 then Except.ok 99 else Except.error "bad")
        ((fun (_ : String) (h : Option (List Nat)) =>
          AgentResult.mk (if h = none then 0 else 1) [5]) "go" none).output
      = Except.error "bad"
    ∧ generateSpec
        (fun (_ : String) (h : Option (List Nat)) =>
          AgentResult.mk (if h = none then 0 else 1) [5])
        (fun o => if o = 1 then Except.ok 99 else Except.error "bad")
        (fun err => err) "go"
      = (Except.ok 99, [("go", none), (mkRetryPrompt "bad", some [5])]) := by
  refine ⟨by simp, ?_⟩
  have h := (c7_viz_spec_retry
    (fun (_ : String) (h : Option (List Nat)) =>
      AgentResult.mk (if h = none then 0 else 1) [5])
    (fun o => if o = 1 then Except.ok 99 else Except.error "bad")
    (fun err => err) "go").2.2.2 "bad" (by simp)
  exact h.1 99 (by simp)

/-- What one FTS query returns: at most `lim` rows, all scoped to the given
database, sorted by BM25 ascending then `updated_at` descending. -/
theorem runFtsQuery_spec (entries : List KnowledgeEntry) (bm25 : KnowledgeEntry → Int)
    (ftsMatch : List Char → KnowledgeEntry → Bool) (databaseName : String)
    (fq : List Char) (lim : Nat) :
    (runFtsQuery entries bm25 ftsMatch databaseName fq lim).length ≤ lim
    ∧ (∀ e ∈ runFtsQuery entries bm25 ftsMatch databaseName fq lim,
        e.database_name = databaseName)
    ∧ List.Sorted (rankRel bm25) (runFtsQuery entries bm25 ftsMatch databaseName fq lim) := by
  unfold runFtsQuery
  refine ⟨List.length_take_le _ _, ?_, ?_⟩
  · intro e he
    have he1 := List.take_subset _ _ he
    have he2 := (List.perm_insertionSort (rankRel bm25) _).mem_iff.mp he1
    have he3 := List.of_mem_filter he2
    simp only [Bool.and_eq_true, beq_iff_eq] at he3
    exact he3.2
  · exact List.Pairwise.sublist (List.take_sublist _ _)
      (List.sorted_insertionSort (rankRel bm25) _)

/-- Every branch of `search` is empty or one capped FTS query result. -/
theorem searchKnowledge_cases (entries : List KnowledgeEntry)
    (bm25 : KnowledgeEntry → Int) (ftsMatch : List Char → KnowledgeEntry → Bool)
    (databaseName : String) (query : List Char) (lim : Nat) :
    searchKnowledge entries bm25 ftsMatch databaseName query lim = []
    ∨ ∃ fq, searchKnowledge entries bm25 ftsMatch databaseName query lim
        = runFtsQuery entries bm25 ftsMatch databaseName fq (max 1 lim) := by
  unfold searchKnowledge
  by_cases h1 : pyStrip query = []
  · rw [if_pos h1]
    exact Or.inl rfl
  · rw [if_neg h1]
    by_cases h2 : prepareFtsQuery query = []
    · rw [if_pos h2]
      exact Or.inl rfl
    · rw [if_neg h2]
      cases hr : runFtsQuery entries bm25 ftsMatch databaseName (prepareFtsQuery query)
          (max 1 lim) with
      | nil =>
        by_cases h3 : quotedTokenQuery query = []
            ∨ quotedTokenQuery query = prepareFtsQuery query
        · rw [if_pos h3]
          exact Or.inl rfl
        · rw [if_neg h3]
          exact Or.inr ⟨quotedTokenQuery query, rfl⟩
      | cons e rest => exact Or.inr ⟨prepareFtsQuery query, hr.symm⟩

/-- C8 (amended): knowledge search returns at most `max 1 limit` entries —
the source clamps the cap with `max(1, limit)`, so `limit = 0` still
returns up to one row — ordered by BM25 rank ascending then `updated_at`
descending, all scoped to the given database name; an empty or
whitespace-only query returns the empty list. -/
theorem c8_knowledge_search (entries : List KnowledgeEntry)
    (bm25 : KnowledgeEntry → Int) (ftsMatch : List Char → KnowledgeEntry → Bool)
    (databaseName : String) (query : List Char) (lim : Nat) :
    (searchKnowledge entries bm25 ftsMatch databaseName query lim).length ≤ max 1 lim
    ∧ (∀ e ∈ searchKnowledge entries bm25 ftsMatch databaseName query lim,
        e.database_name = databaseName)
    ∧ List.Sorted (rankRel bm25)
        (searchKnowledge entries bm25 ftsMatch databaseName query lim)
    ∧ (pyStrip query = [] →
        searchKnowledge entries bm25 ftsMatch databaseName query lim = []) := by
  have hempty : pyStrip query = [] →
      searchKnowledge entries bm25 ftsMatch databaseName query lim = [] := by
    intro h
    unfold searchKnowledge
    rw [if_pos h]
  obtain hc | ⟨fq, hc⟩ :=
    searchKnowledge_cases entries bm25 ftsMatch databaseName query lim
  · rw [hc]
    exact ⟨by simp, by simp, List.Pairwise.nil, fun _ => rfl⟩
  · rw [hc]
    obtain ⟨hl, hm, hs⟩ := runFtsQuery_spec entries bm25 ftsMatch databaseName fq (max 1 lim)
    exact ⟨hl, hm, hs, fun h => by rw [← hc]; exact hempty h⟩

/-- Witness for C8's whitespace-query clause. -/
theorem c8_knowledge_search_witness :
    pyStrip ("   ".data) = []
    ∧ searchKnowledge [] (fun _ => 0) (fun _ _ => true) "db" ("   ".data) 10 = [] :=
  ⟨by decide,
   (c8_knowledge_search [] (fun _ => 0) (fun _ _ => true) "db" ("   ".data) 10).2.2.2
     (by decide)⟩

/-- C8 counterexample: the claim says the result has at most `limit`
entries for every limit, but with `limit = 0` the source's `max(1, limit)`
cap still returns one matching row. -/
theorem c8_counterexample :
    ¬ ((searchKnowledge
        [{ id := "k1", database_name := "db", name := "alpha", description := "d",
           sql := none, source := none, created_at := 0, updated_at := 0 }]
        (fun _ => 0) (fun _ _ => true) "db" ("alpha".data) 0).length ≤ 0) := by
  decide

/-- C9: `_ensure_bar_defaults` leaves non-bar charts unchanged; for a bar
chart it appends — in this order — a descending sort on the Y-encoding
field when no sort transform is present, and a `limit=20` transform when
no limit transform is present and the result has more than 20 rows; a bar
spec already containing both transforms is returned unchanged. -/
theorem c9_bar_defaults (spec : VizSpec) (rowCount : Nat) :
    ((∀ encoding orientation mode options,
        spec.chart ≠ ChartSpec.bar encoding orientation mode options) →
      ensureBarDefaults spec rowCount = spec)
    ∧ (∀ encoding orientation mode options,
        spec.chart = ChartSpec.bar encoding orientation mode options →
        (ensureBarDefaults spec rowCount).transform
          = spec.transform
            ++ (if spec.transform.any isSortTransform then []
                else [Transform.sortT [{ field := encoding.y.field, dir := "desc" }]])
            ++ (if spec.transform.any isLimitTransform = false ∧ rowCount > 20
                then [Transform.limitT 20] else [])
        ∧ (spec.transform.any isSortTransform = true
            ∧ spec.transform.any isLimitTransform = true →
            ensureBarDefaults spec rowCount = spec)) := by
  constructor
  · intro hni
    unfold ensureBarDefaults
    cases hch : spec.chart with
    | bar enc o m opts => exact absurd hch (hni enc o m opts)
    | line x y series options => rfl
    | scatter x y series options => rfl
    | boxplot lf vf options => rfl
    | histogram f bins options => rfl
  · intro enc o m opts hch
    have hne1 : ∀ (l : List Transform) (x : Transform), ¬ (l ++ [x] = l) := by
      intro l x hEq
      have h' := congrArg List.length hEq
      simp at h'
    have hne2 : ∀ (l : List Transform) (x y : Transform), ¬ (l ++ [x] ++ [y] = l) := by
      intro l x y hEq
      have h' := congrArg List.length hEq
      simp at h'
    have hPiff : ((!(spec.transform.any isLimitTransform)
          && decide (rowCount > 20)) = true)
        ↔ (spec.transform.any isLimitTransform = false ∧ rowCount > 20) := by
      simp [Bool.and_eq_true, Bool.not_eq_true']
    constructor
    · by_cases hsort : spec.transform.any isSortTransform = true
      · by_cases hB : (!(spec.transform.any isLimitTransform)
            && decide (rowCount > 20)) = true
        · have hres : ensureBarDefaults spec rowCount
              = { spec with transform := spec.transform ++ [Transform.limitT 20] } := by
            unfold ensureBarDefaults
            rw [hch]
            simp [hsort, hB, hne1]
          rw [hres]
          rw [if_pos hsort, if_pos (hPiff.mp hB)]
          simp
        · have hBf : (!(spec.transform.any isLimitTransform)
              && decide (rowCount > 20)) = false := by
            simpa using hB
          have hP' : ¬ (spec.transform.any isLimitTransform = false ∧ rowCount > 20) :=
            fun hP => hB (hPiff.mpr hP)
          have hres : ensureBarDefaults spec rowCount = spec := by
            unfold ensureBarDefaults
            rw [hch]
            simp [hsort, hBf]
          rw [hres]
          rw [if_pos hsort, if_neg hP']
          simp
      · have hsort' : spec.transform.any isSortTransform = false := by
          simpa using hsort
        by_cases hB : (!(spec.transform.any isLimitTransform)
            && decide (rowCount > 20)) = true
        · have hres : ensureBarDefaults spec rowCount
              = { spec with transform := spec.transform
                    ++ [Transform.sortT [{ field := enc.y.field, dir := "desc" }]]
                    ++ [Transform.limitT 20] } := by
            unfold ensureBarDefaults
            rw [hch]
            simp [hsort', hB, hne2]
          rw [hres]
          rw [if_neg hsort, if_pos (hPiff.mp hB)]
        · have hBf : (!(spec.transform.any isLimitTransform)
              && decide (rowCount > 20)) = false := by
            simpa using hB
          have hP' : ¬ (spec.transform.any isLimitTransform = false ∧ rowCount > 20) :=
            fun hP => hB (hPiff.mpr hP)
          have hres : ensureBarDefaults spec rowCount
              = { spec with transform := spec.transform
                    ++ [Transform.sortT [{ field := enc.y.field, dir := "desc" }]] } := by
            unfold ensureBarDefaults
            rw [hch]
            simp [hsort', hBf, hne1]
          rw [hres]
          rw [if_neg hsort, if_neg hP']
          simp
    · rintro ⟨hsort, hlimit⟩
      unfold ensureBarDefaults
      rw [hch]
      simp [hsort, hlimit]

/-- Witness for C9: a bar chart with no transforms over a 25-row result
gains the default sort and the limit, in that order. -/
theorem c9_bar_defaults_witness :
    (ensureBarDefaults
      { version := "1", title := none, description := none,
        data_source_file := "result_a.json",
        chart := ChartSpec.bar
          { x := { field := "cat", type := "category" },
            y := { field := "val", type := "number" }, series := none }
          "vertical" "grouped"
          { width := none, height := none, x_label := none, y_label := none,
            color := none, marker := none },
        transform := [] } 25).transform
      = [Transform.sortT [{ field := "val", dir := "desc" }], Transform.limitT 20] := by
  have h := (c9_bar_defaults
    { version := "1", title := none, description := none,
      data_source_file := "result_a.json",
      chart := ChartSpec.bar
        { x := { field := "cat", type := "category" },
          y := { field := "val", type := "number" }, series := none }
        "vertical" "grouped"
        { width := none, height := none, x_label := none, y_label := none,
          color := none, marker := none },
      transform := [] } 25).2
    { x := { field := "cat", type := "category" },
      y := { field := "val", type := "number" }, series := none }
    "vertical" "grouped"
    { width := none, height := none, x_label := none, y_label := none,
      color := none, marker := none } rfl
  rw [h.1]
  decide

/-- C10: `remove` returns true exactly when an entry with the given
`(database_name, id)` pair existed; it deletes exactly the matching
entries, keeps every other entry, and when nothing matched it returns
false with the store unmodified. -/
theorem c10_remove (store : List KnowledgeEntry) (databaseName entryId : String) :
    ((removeEntry store databaseName entryId).2 = true
      ↔ ∃ e ∈ store, e.database_name = databaseName ∧ e.id = entryId)
    ∧ (removeEntry store databaseName entryId).1
        = store.filter (fun e => !(e.database_name == databaseName && e.id == entryId))
    ∧ (∀ e ∈ store, ¬ (e.database_name = databaseName ∧ e.id = entryId) →
        e ∈ (removeEntry store databaseName entryId).1)
    ∧ (∀ e ∈ (removeEntry store databaseName entryId).1,
        e ∈ store ∧ ¬ (e.database_name = databaseName ∧ e.id = entryId))
    ∧ ((removeEntry store databaseName entryId).2 = false →
        (removeEntry store databaseName entryId).1 = store) := by
  refine ⟨?_, rfl, ?_, ?_, ?_⟩
  · constructor
    · intro h
      simp only [removeEntry, decide_eq_true_eq] at h
      obtain ⟨e, he⟩ := List.exists_mem_of_length_pos h
      have hf := List.mem_filter.mp he
      refine ⟨e, hf.1, ?_⟩
      simpa using hf.2
    · rintro ⟨e, hmem, hdb, hid⟩
      simp only [removeEntry, decide_eq_true_eq]
      exact List.length_pos_of_mem
        (List.mem_filter.mpr ⟨hmem, by simp [hdb, hid]⟩)
  · intro e he hne
    refine List.mem_filter.mpr ⟨he, ?_⟩
    by_cases hd : e.database_name = databaseName
    · by_cases hid : e.id = entryId
      · exact absurd ⟨hd, hid⟩ hne
      · simp [hid]
    · simp [hd]
  · intro e he
    have hf := List.mem_filter.mp he
    refine ⟨hf.1, ?_⟩
    rintro ⟨hd, hid⟩
    have hp := hf.2
    rw [hd, hid] at hp
    simp at hp
  · intro h
    simp only [removeEntry, decide_eq_false_iff_not, Nat.not_lt, Nat.le_zero,
      List.length_eq_zero] at h
    have hall := List.filter_eq_nil_iff.mp h
    refine List.filter_eq_self.mpr ?_
    intro e he
    have hnp := hall e he
    rcases Bool.eq_false_or_eq_true
        (e.database_name == databaseName && e.id == entryId) with hx | hx
    all_goals first
    | exact absurd hx hnp
    | simp [hx]

/-- Witness for C10: removing the single matching entry empties the store
and reports true. -/
theorem c10_remove_witness :
    (removeEntry
      [{ id := "k1", database_name := "db", name := "n", description := "d",
         sql := none, source := none, created_at := 0, updated_at := 0 }]
      "db" "k1").2 = true
    ∧ (removeEntry
      [{ id := "k1", database_name := "db", name := "n", description := "d",
         sql := none, source := none, created_at := 0, updated_at := 0 }]
      "db" "k1").1 = [] :=
  ⟨(c10_remove
      [{ id := "k1", database_name := "db", name := "n", description := "d",
         sql := none, source := none, created_at := 0, updated_at := 0 }]
      "db" "k1").1.mpr
    ⟨{ id := "k1", database_name := "db", name := "n", description := "d",
       sql := none, source := none, created_at := 0, updated_at := 0 },
     by decide, by decide, by decide⟩,
   by decide⟩

end SqlSaber
